import Mathlib

/-!
# examConnect — verification of the messaging and quiz core

Shallow embedding of the examConnect backend (Node/Express/Mongoose/Socket.IO)
covering the quiz scoring engine (`src/backend/models/Quiz.js`), the quiz
attempt lifecycle (`src/backend/controllers/quizController.js`), the message
store (`src/backend/models/Message.js`, `src/backend/controllers/messageController.js`),
the real-time `send-message` handler (`src/backend/websocket/socket.js`), and
group membership (`src/backend/models/Group.js`,
`src/backend/controllers/groupController.js`).

Conventions: Mongo ObjectIds are modelled as `Nat`; `Date` timestamps as `Nat`;
JS numbers used for marks/scores as `ℚ`; a JS `Mixed` value as the inductive
`JsVal`; JS code that can throw a `TypeError` is modelled in `Except Unit`.
-/

namespace ExamConnect

/-- Decidable equality for `Except`, so that concrete runs of the fallible
operations can be checked by `decide`. -/
instance {ε α : Type _} [DecidableEq ε] [DecidableEq α] : DecidableEq (Except ε α) :=
  fun x y =>
    match x, y with
    | .ok a, .ok b => decidable_of_iff (a = b) (by simp)
    | .error a, .error b => decidable_of_iff (a = b) (by simp)
    | .ok _, .error _ => isFalse fun h => Except.noConfusion h
    | .error _, .ok _ => isFalse fun h => Except.noConfusion h

/-- A JavaScript runtime value as stored in a Mongoose `Mixed` field
(`correctAnswer`, `answer`): a string, boolean, number, `null`, or
`undefined`.  Derived decidable equality coincides with JS strict
equality `===` on these values (`null === null`, `undefined === undefined`,
values of different shapes are never equal). -/
inductive JsVal where
  | str (s : String)
  | jbool (b : Bool)
  | num (n : Int)
  | jnull
  | undef
  deriving DecidableEq, Repr

/-- JS strict equality `===` restricted to the modelled values. -/
def jsStrictEq (a b : JsVal) : Bool := decide (a = b)

/-- Models `v?.toLowerCase().trim()` from `calculateScore`: optional chaining yields
`undefined` (here `none`) on `null`/`undefined`; strings are lower-cased then
trimmed; calling `.toLowerCase` on a boolean or number throws a `TypeError`
(here `Except.error ()`). -/
def jsLowerTrim : JsVal → Except Unit (Option String)
  | .str s => .ok (some s.toLower.trim)
  | .jnull => .ok none
  | .undef => .ok none
  | .jbool _ => .error ()
  | .num _ => .error ()

/-- Question types (`questions.type` enum in `Quiz.js`). -/
inductive QType where
  | multipleChoice
  | shortAnswer
  | trueFalse
  | essay
  deriving DecidableEq, Repr

/-- One quiz question (`Quiz.js` question subdocument).  The `options`,
`explanation` and per-question `timeLimit` fields are never consulted by the
scoring or attempt-lifecycle code and are omitted. -/
structure Question where
  question : String
  qtype : QType
  correctAnswer : JsVal
  marks : ℚ
  deriving DecidableEq, Repr

/-- The JS expression `question.marks || 1` used by `calculateScore` and by
the `totalMarks` pre-save hook: `0` is falsy, so a question whose `marks` is
`0` contributes `1`. -/
def jsMarks (q : Question) : ℚ := if q.marks = 0 then 1 else q.marks

/-- One answer record of a submission (`submissions.answers` subdocument). -/
structure Answer where
  questionIndex : Int
  answer : JsVal
  timeSpent : Option Nat
  isCorrect : Option Bool
  marksObtained : Option ℚ
  deriving DecidableEq, Repr

/-- Submission status enum. -/
inductive SubStatus where
  | inProgress
  | submitted
  | graded
  deriving DecidableEq, Repr

/-- One embedded submission record (`Quiz.js` `submissions` subdocument). -/
structure Submission where
  id : Nat
  userId : Nat
  answers : List Answer
  startedAt : Nat
  submittedAt : Option Nat
  totalScore : Option ℚ
  percentage : Option ℚ
  timeSpent : Option Nat
  attemptNumber : Nat
  status : SubStatus
  deriving DecidableEq, Repr

/-- Quiz settings.  Only `maxAttempts` is consulted by the verified
operations; the shuffle/showResults/allowRetakes/timeLimit settings are
never read by `startQuiz`, `submitQuiz` or `calculateScore`. -/
structure QuizSettings where
  maxAttempts : Nat
  deriving DecidableEq, Repr

/-- A quiz document (`Quiz.js`).  `totalMarks` is the stored field that the
pre-save hook keeps equal to the sum of `marks || 1`; `calculateScore` reads
the stored field, so it is modelled as data, not derived. -/
structure Quiz where
  id : Nat
  questions : List Question
  settings : QuizSettings
  deadline : Nat
  isActive : Bool
  totalMarks : ℚ
  submissions : List Submission
  deriving DecidableEq, Repr

/-- Models `this.questions[answer.questionIndex]` — JS indexing returns `undefined`
(`none`) for a negative or out-of-bounds index. -/
def getQuestion (qs : List Question) (i : Int) : Option Question :=
  if 0 ≤ i then qs[i.toNat]? else none

/-- The per-answer body of `calculateScore` (`Quiz.js` lines 235-257): given
the question and the raw answer value, produce `(isCorrect, marksObtained)`.
`multiple-choice` / `true-false` use strict equality with `correctAnswer`;
`short-answer` compares both sides through `?.toLowerCase().trim()` (which
can throw); `essay` is always incorrect with 0 marks.  A correct answer earns
`question.marks || 1`. -/
def scoreOne (q : Question) (v : JsVal) : Except Unit (Bool × ℚ) :=
  match q.qtype with
  | .multipleChoice =>
      let c := jsStrictEq q.correctAnswer v
      .ok (c, if c then jsMarks q else 0)
  | .trueFalse =>
      let c := jsStrictEq q.correctAnswer v
      .ok (c, if c then jsMarks q else 0)
  | .shortAnswer =>
      match jsLowerTrim q.correctAnswer, jsLowerTrim v with
      | .ok s1, .ok s2 =>
          let c := decide (s1 = s2)
          .ok (c, if c then jsMarks q else 0)
      | _, _ => .error ()
  | .essay => .ok (false, 0)

/-- The `submission.answers.forEach` loop of `calculateScore`: each answer
whose `questionIndex` resolves to a question gets its `isCorrect` and
`marksObtained` fields set and contributes `marksObtained` to the running
total; an answer whose index resolves to no question is left untouched and
contributes nothing. -/
def scoreAnswers (qs : List Question) : List Answer → Except Unit (List Answer × ℚ)
  | [] => .ok ([], 0)
  | a :: rest =>
    match getQuestion qs a.questionIndex with
    | none =>
      match scoreAnswers qs rest with
      | .ok p => .ok (a :: p.1, p.2)
      | .error e => .error e
    | some q =>
      match scoreOne q a.answer, scoreAnswers qs rest with
      | .ok cm, .ok p =>
          .ok ({ a with isCorrect := some cm.1, marksObtained := some cm.2 } :: p.1,
               p.2 + cm.2)
      | _, _ => .error ()

/-- Models `quizSchema.methods.calculateScore` (`Quiz.js` lines 226-270) acting on
one submission: score every answer, set `totalScore`, set
`percentage = totalMarks > 0 ? totalScore / totalMarks * 100 : 0`, and mark
the submission `graded`.  (The trailing `this.updateAnalytics()` call mutates
the quiz's `analytics` field only, which no claim mentions.) -/
def calculateScore (quiz : Quiz) (sub : Submission) : Except Unit Submission :=
  match scoreAnswers quiz.questions sub.answers with
  | .error e => .error e
  | .ok p =>
    .ok { sub with
          answers := p.1
          totalScore := some p.2
          percentage := some (if 0 < quiz.totalMarks then p.2 / quiz.totalMarks * 100 else 0)
          status := .graded }

/-- The `submittedAttempts` count of `startQuiz` (`quizController.js` lines
294-299): the user's submissions with status `submitted` or `graded`. -/
def submittedCount (quiz : Quiz) (u : Nat) : Nat :=
  ((quiz.submissions.filter fun s => s.userId == u).filter fun s =>
      s.status == SubStatus.submitted || s.status == SubStatus.graded).length

/-- Result of `startQuiz` as seen by the client. -/
inductive StartOutcome where
  | inactive
  | expired
  | attemptsExhausted
  | resumed (sub : Submission)
  | started (sub : Submission)
  deriving DecidableEq, Repr

/-- Models `startQuiz` (`quizController.js` lines 266-384), given the quiz document,
the requesting user, the current time and the ObjectId the database would
assign to a new subdocument.  Check order follows the source exactly:
inactive, then expired (`quiz.deadline < new Date()`), then
`submittedAttempts >= maxAttempts`, then resume of an `in-progress`
submission, then creation of a fresh one with
`attemptNumber = submittedAttempts + 1`.  Returns the outcome and the saved
quiz state (unchanged except on the creation path). -/
def startQuiz (quiz : Quiz) (u now freshId : Nat) : StartOutcome × Quiz :=
  if !quiz.isActive then (.inactive, quiz)
  else if quiz.deadline < now then (.expired, quiz)
  else if quiz.settings.maxAttempts ≤ submittedCount quiz u then
    (.attemptsExhausted, quiz)
  else
    match (quiz.submissions.filter fun s => s.userId == u).find?
        (fun s => s.status == SubStatus.inProgress) with
    | some s => (.resumed s, quiz)
    | none =>
        let newSub : Submission :=
          { id := freshId, userId := u, answers := [], startedAt := now,
            submittedAt := none, totalScore := none, percentage := none,
            timeSpent := none, attemptNumber := submittedCount quiz u + 1,
            status := .inProgress }
        (.started newSub, { quiz with submissions := quiz.submissions ++ [newSub] })

/-! ## Message store (`Message.js`, `messageController.js`, `socket.js`) -/

/-- Message type enum. -/
inductive MType where
  | text
  | quiz
  | file
  | system
  deriving DecidableEq, Repr

/-- A `readBy` entry. -/
structure ReadEntry where
  userId : Nat
  readAt : Nat
  deriving DecidableEq, Repr

/-- A message document (`Message.js`).  `text` is `content.text`; the `file`
and `quiz` content payloads, the `edited` subdocument and `systemAction` are
never consulted by the verified operations and are omitted.  `createdAt` is
the Mongoose timestamp used by the `{ createdAt: -1 }` sort. -/
structure Message where
  id : Nat
  groupId : Nat
  senderId : Nat
  mtype : MType
  text : Option String
  readBy : List ReadEntry
  replyTo : Option Nat
  isDeleted : Bool
  deletedAt : Option Nat
  createdAt : Nat
  deriving DecidableEq, Repr

/-- The message collection plus the clock that assigns ids and `createdAt`
timestamps: each `Message.create` gets a strictly larger timestamp than every
earlier document (`WF` below). -/
structure MsgStore where
  messages : List Message
  nextStamp : Nat
  deriving DecidableEq, Repr

/-- Store well-formedness: documents are listed in creation order with
strictly increasing `createdAt`, all below the clock. -/
def MsgStore.WF (s : MsgStore) : Prop :=
  s.messages.Pairwise (fun a b => a.createdAt < b.createdAt) ∧
  ∀ m ∈ s.messages, m.createdAt < s.nextStamp

/-- The fresh document built by `Message.create` for a chat message: empty
`readBy`, `isDeleted = false`, and the store's next timestamp. -/
def newMessage (s : MsgStore) (gid uid : Nat) (t : MType) (text : Option String)
    (r : Option Nat) : Message :=
  { id := s.nextStamp, groupId := gid, senderId := uid, mtype := t, text := text,
    readBy := [], replyTo := r, isDeleted := false, deletedAt := none,
    createdAt := s.nextStamp }

/-- Models `Message.create` for a chat message (shared by the REST `sendMessage`
controller and the socket `send-message` handler): append the fresh
document and advance the clock. -/
def appendMessage (s : MsgStore) (gid uid : Nat) (t : MType) (text : Option String)
    (r : Option Nat) : Message × MsgStore :=
  (newMessage s gid uid t text r,
   { messages := s.messages ++ [newMessage s gid uid t text r],
     nextStamp := s.nextStamp + 1 })

/-- Models `messageSchema.methods.softDelete`: set `isDeleted` and `deletedAt`;
the stored content is untouched. -/
def Message.softDelete (m : Message) (now : Nat) : Message :=
  { m with isDeleted := true, deletedAt := some now }

/-- The `deleteMessage` controller's persisted effect once authorized:
load the document by id, `softDelete()` it, save. -/
def softDeleteInStore (s : MsgStore) (mid now : Nat) : MsgStore :=
  { s with messages := s.messages.map fun m =>
      if m.id == mid then m.softDelete now else m }

/-- The serialized view of a message (`messageSchema.set('toJSON')`
transform output, restricted to the modelled fields). -/
structure MessageView where
  id : Nat
  groupId : Nat
  senderId : Option Nat
  text : Option String
  isDeleted : Bool
  deriving DecidableEq, Repr

/-- The `toJSON` transform (`Message.js` lines 252-263): a deleted message is
serialized with `content = { text: 'This message was deleted' }` and
`senderId = null`; others are serialized as stored. -/
def Message.toJSON (m : Message) : MessageView :=
  if m.isDeleted then
    { id := m.id, groupId := m.groupId, senderId := none,
      text := some "This message was deleted", isDeleted := true }
  else
    { id := m.id, groupId := m.groupId, senderId := some m.senderId,
      text := m.text, isDeleted := m.isDeleted }

/-- Insertion step of the `{ createdAt: -1 }` sort: place `m` before the
first element with a smaller-or-equal timestamp. -/
def insertDesc (m : Message) : List Message → List Message
  | [] => [m]
  | x :: xs => if x.createdAt ≤ m.createdAt then m :: x :: xs else x :: insertDesc m xs

/-- Models `.sort({ createdAt: -1 })` — sort newest-first by `createdAt`.  (On a
well-formed store timestamps are distinct, so any comparison sort agrees
with this insertion sort.) -/
def sortDesc : List Message → List Message
  | [] => []
  | m :: xs => insertDesc m (sortDesc xs)

/-- Models `messageSchema.statics.getGroupMessages` (`Message.js` lines 175-188):
`find({ groupId, isDeleted: false })`, sort by `createdAt` descending,
`skip((page-1)*limit)`, `limit(limit)`. -/
def getGroupMessages (s : MsgStore) (gid page limit : Nat) : List Message :=
  (((sortDesc (s.messages.filter fun m => m.groupId == gid && !m.isDeleted)).drop
      ((page - 1) * limit)).take limit)

/-- The `getMessages` controller (`messageController.js` lines 7-25): fetch a
page and `reverse()` it so the caller receives chronological order. -/
def getMessages (s : MsgStore) (gid page limit : Nat) : List Message :=
  (getGroupMessages s gid page limit).reverse

/-- A delivered page as serialized to the HTTP response (`res.json` applies
the `toJSON` transform to each document). -/
def pageRead (s : MsgStore) (gid page limit : Nat) : List MessageView :=
  (getMessages s gid page limit).map Message.toJSON

/-- Models `messageSchema.statics.getUnreadCount` (`Message.js` lines 191-198):
`countDocuments({ groupId, senderId: { $ne: userId }, isDeleted: false,
'readBy.userId': { $ne: userId } })`. -/
def getUnreadCount (s : MsgStore) (gid uid : Nat) : Nat :=
  (s.messages.filter fun m =>
      m.groupId == gid && !(m.senderId == uid) && !m.isDeleted &&
      !(m.readBy.any fun e => e.userId == uid)).length

/-! ## Groups (`Group.js`, `groupController.js`) -/

/-- Platform-level user role (`User.role`), as checked by
`req.user.role === 'student'` / `socket.user.role === 'student'`. -/
inductive URole where
  | admin
  | student
  deriving DecidableEq, Repr

/-- An authenticated user identity as the controllers see it. -/
structure User where
  id : Nat
  role : URole
  deriving DecidableEq, Repr

/-- Group-level member role enum (`members.role`). -/
inductive GRole where
  | admin
  | member
  deriving DecidableEq, Repr

/-- A `members` entry of a group. -/
structure GMember where
  user : Nat
  role : GRole
  joinedAt : Nat
  deriving DecidableEq, Repr

/-- Group settings (`Group.js`). -/
structure GroupSettings where
  allowStudentMessages : Bool
  allowFileUploads : Bool
  allowQuizCreation : Bool
  deriving DecidableEq, Repr

/-- A group document (`Group.js`). -/
structure Group where
  id : Nat
  createdBy : Nat
  members : List GMember
  maxMembers : Nat
  settings : GroupSettings
  isActive : Bool
  deriving DecidableEq, Repr

/-- Models `groupSchema.methods.isMember`. -/
def Group.isMember (g : Group) (u : Nat) : Bool :=
  g.members.any fun m => m.user == u

/-- Models `groupSchema.methods.isAdmin`. -/
def Group.isAdmin (g : Group) (u : Nat) : Bool :=
  g.members.any fun m => m.user == u && m.role == GRole.admin

/-- Models `groupSchema.methods.addMember`: push a new entry unless already a member. -/
def Group.addMember (g : Group) (u : Nat) (role : GRole) (now : Nat) : Group :=
  if g.isMember u then g
  else { g with members := g.members ++ [{ user := u, role := role, joinedAt := now }] }

/-- Models `groupSchema.methods.removeMember`: filter the user out. -/
def Group.removeMember (g : Group) (u : Nat) : Group :=
  { g with members := g.members.filter fun m => !(m.user == u) }

/-- Models the `members.find(...)` lookup followed by a role assignment in
`changeMemberRole`: update the first entry for `u` (well-formed groups have
at most one). -/
def setRoleFirst (u : Nat) (role : GRole) : List GMember → List GMember
  | [] => []
  | m :: ms => if m.user == u then { m with role := role } :: ms
               else m :: setRoleFirst u role ms

/-- Models `Group.findById(...)` over the group collection. -/
def findGroup (groups : List Group) (gid : Nat) : Option Group :=
  groups.find? fun g => g.id == gid

/-- The `pre('save')` hook of `Group.js` (lines 146-163) on a NEW document:
if the creator is not among `members`, push them with role `admin`.  On
subsequent saves (`isNew` false) the hook is a no-op, so the member-mutation
endpoints below persist their state as computed. -/
def preSaveNew (g : Group) (now : Nat) : Group :=
  if g.members.any (fun m => m.user == g.createdBy) then g
  else { g with members := g.members ++ [{ user := g.createdBy, role := .admin, joinedAt := now }] }

/-- Models `createGroup` (`groupController.js`): `Group.create` with no `members`
supplied, so the pre-save hook installs the creator as admin. -/
def createGroupCtrl (gid creator : Nat) (maxMembers : Nat) (settings : GroupSettings)
    (now : Nat) : Group :=
  preSaveNew
    { id := gid, createdBy := creator, members := [], maxMembers := maxMembers,
      settings := settings, isActive := true } now

/-- Outcome of a group-membership endpoint: HTTP error or success. -/
inductive OpResult where
  | ok
  | err (msg : String)
  deriving DecidableEq, Repr

/-- The member mutations of `groupController.js`, as data: join, leave,
admin add-member, admin remove-member, role change. -/
inductive GroupOp where
  | join (u now : Nat)
  | leave (u : Nat)
  | add (u : Nat) (role : GRole) (now : Nat)
  | remove (u : Nat)
  | changeRole (u : Nat) (role : GRole)
  deriving DecidableEq, Repr

/-- Models `joinGroup` (`groupController.js` lines 192-251), persisted effect:
reject if already a member or the group is full, else `addMember(u, 'member')`. -/
def joinGroup (g : Group) (u now : Nat) : OpResult × Group :=
  if g.isMember u then (.err "You are already a member of this group", g)
  else if g.maxMembers ≤ g.members.length then (.err "Group is full", g)
  else (.ok, g.addMember u .member now)

/-- Models `leaveGroup` (`groupController.js` lines 256-309), persisted effect: the
creator cannot leave; a non-member request is rejected without saving; else
the member is filtered out. -/
def leaveGroup (g : Group) (u : Nat) : OpResult × Group :=
  if g.createdBy == u then
    (.err "Group creator cannot leave the group. Transfer ownership or delete the group instead.", g)
  else if g.isMember u then (.ok, g.removeMember u)
  else (.err "You are not a member of this group", g)

/-- Models `addMember` (admin endpoint, `groupController.js` lines 314-362),
persisted effect after the admin gate. -/
def addMemberCtrl (g : Group) (u : Nat) (role : GRole) (now : Nat) : OpResult × Group :=
  if g.isMember u then (.err "User is already a member of this group", g)
  else if g.maxMembers ≤ g.members.length then (.err "Group is full", g)
  else (.ok, g.addMember u role now)

/-- Models `removeMember` (admin endpoint, `groupController.js` lines 367-408),
persisted effect: the creator cannot be removed; removing a non-member is
rejected without saving. -/
def removeMemberCtrl (g : Group) (u : Nat) : OpResult × Group :=
  if g.createdBy == u then (.err "Cannot remove group creator", g)
  else if g.isMember u then (.ok, g.removeMember u)
  else (.err "User is not a member of this group", g)

/-- Models `updateMemberRole` (`groupController.js` lines 413-463), persisted
effect: the creator's role cannot be changed; `changeMemberRole` updates the
first matching entry and reports false (no save) when the user is absent or
the role is unchanged. -/
def updateMemberRole (g : Group) (u : Nat) (role : GRole) : OpResult × Group :=
  if g.createdBy == u then (.err "Cannot change group creator role", g)
  else if g.members.any (fun m => m.user == u && !(m.role == role)) then
    (.ok, { g with members := setRoleFirst u role g.members })
  else (.err "User is not a member of this group or role is the same", g)

/-- Dispatch one member mutation. -/
def applyGroupOp (g : Group) : GroupOp → OpResult × Group
  | .join u now => joinGroup g u now
  | .leave u => leaveGroup g u
  | .add u role now => addMemberCtrl g u role now
  | .remove u => removeMemberCtrl g u
  | .changeRole u role => updateMemberRole g u role

/-- The invariant of claim C8, as a decidable check: `members` contains an
entry for `createdBy` with role `admin`. -/
def Group.creatorIsAdmin (g : Group) : Bool :=
  g.members.any fun m => m.user == g.createdBy && m.role == GRole.admin

/-! ## Sending messages (REST `sendMessage` and socket `send-message`) -/

/-- HTTP result of the REST `sendMessage` controller. -/
inductive RestResult where
  | notFound (msg : String)
  | forbidden (msg : String)
  | badRequest (msg : String)
  | created (m : Message)
  deriving DecidableEq, Repr

/-- REST `sendMessage` (`messageController.js` lines 70-137): 404 if the
group is missing; 403 if the sender is a student and the group forbids
student messages; if `replyTo` is supplied, 400 unless
`findOne({ _id: replyTo, groupId })` matches; else `Message.create`. -/
def sendMessage (groups : List Group) (s : MsgStore) (sender : User) (gid : Nat)
    (text : Option String) (t : MType) (replyTo : Option Nat) : RestResult × MsgStore :=
  match findGroup groups gid with
  | none => (.notFound "Group not found", s)
  | some g =>
    if sender.role == URole.student && !g.settings.allowStudentMessages then
      (.forbidden "Students are not allowed to send messages in this group", s)
    else
      match replyTo with
      | some r =>
          if s.messages.any (fun m => m.id == r && m.groupId == gid) then
            let (m, s') := appendMessage s gid sender.id t text (some r)
            (.created m, s')
          else (.badRequest "Replied message not found in this group", s)
      | none =>
          let (m, s') := appendMessage s gid sender.id t text none
          (.created m, s')

/-- What the socket `send-message` handler emits. -/
inductive SockResult where
  | errorToSender (msg : String)
  | broadcast (room : Nat) (m : Message)
  deriving DecidableEq, Repr

/-- The socket `send-message` handler (`socket.js` lines 60-102): scoped
error unless the group exists and the sender is a member; scoped error if a
student sends while `allowStudentMessages` is off; otherwise
`Message.create({ ..., replyTo: replyTo || null })` — note: NO validation of
`replyTo` — then broadcast `new-message` to the `group_{groupId}` room. -/
def socketSendMessage (groups : List Group) (s : MsgStore) (sender : User) (gid : Nat)
    (text : Option String) (t : MType) (replyTo : Option Nat) : SockResult × MsgStore :=
  match findGroup groups gid with
  | none => (.errorToSender "Not authorized to send messages in this group", s)
  | some g =>
    if !g.isMember sender.id then
      (.errorToSender "Not authorized to send messages in this group", s)
    else if sender.role == URole.student && !g.settings.allowStudentMessages then
      (.errorToSender "Students are not allowed to send messages in this group", s)
    else
      let (m, s') := appendMessage s gid sender.id t text replyTo
      (.broadcast gid m, s')

/-! ## Scoring: specification-side notions and lemmas (claims C1, C10) -/

/-- Spec-side total: the sum of the stored `marksObtained` over the answers
whose `questionIndex` resolves to a question (skipped answers contribute
nothing). -/
def specTotal (qs : List Question) (answers : List Answer) : ℚ :=
  (answers.map fun a =>
    match getQuestion qs a.questionIndex with
    | none => 0
    | some _ => a.marksObtained.getD 0).sum

/-- Spec-side relation between an input answer `a` and its scored version
`b`, following the spec's wording for each question type (with the `marks`
fallback the code actually applies): out-of-bounds answers are unchanged;
otherwise `isCorrect` is characterised per question type and `marksObtained`
is `marks || 1` when correct, `0` otherwise. -/
def answerRel (qs : List Question) (a b : Answer) : Prop :=
  match getQuestion qs a.questionIndex with
  | none => b = a
  | some q =>
      b.questionIndex = a.questionIndex ∧ b.answer = a.answer ∧
      b.timeSpent = a.timeSpent ∧
      ∃ c : Bool,
        b.isCorrect = some c ∧
        b.marksObtained = some (if c then jsMarks q else 0) ∧
        (match q.qtype with
         | .multipleChoice => (c = true ↔ q.correctAnswer = a.answer)
         | .trueFalse => (c = true ↔ q.correctAnswer = a.answer)
         | .shortAnswer => ∃ s1 s2, jsLowerTrim q.correctAnswer = Except.ok s1 ∧
              jsLowerTrim a.answer = Except.ok s2 ∧ (c = true ↔ s1 = s2)
         | .essay => c = false)

theorem scoreOne_ok (q : Question) (v : JsVal) (c : Bool) (m : ℚ)
    (h : scoreOne q v = .ok (c, m)) :
    m = (if c then jsMarks q else 0) ∧
    (match q.qtype with
     | .multipleChoice => (c = true ↔ q.correctAnswer = v)
     | .trueFalse => (c = true ↔ q.correctAnswer = v)
     | .shortAnswer => ∃ s1 s2, jsLowerTrim q.correctAnswer = Except.ok s1 ∧
          jsLowerTrim v = Except.ok s2 ∧ (c = true ↔ s1 = s2)
     | .essay => c = false) := by
  cases hq : q.qtype with
  | multipleChoice =>
    simp only [scoreOne, hq, Except.ok.injEq, Prod.mk.injEq] at h
    obtain ⟨rfl, rfl⟩ := h
    exact ⟨rfl, by simp [jsStrictEq]⟩
  | trueFalse =>
    simp only [scoreOne, hq, Except.ok.injEq, Prod.mk.injEq] at h
    obtain ⟨rfl, rfl⟩ := h
    exact ⟨rfl, by simp [jsStrictEq]⟩
  | shortAnswer =>
    simp only [scoreOne, hq] at h
    cases h1 : jsLowerTrim q.correctAnswer with
    | error e => rw [h1] at h; cases h
    | ok s1 =>
      cases h2 : jsLowerTrim v with
      | error e => rw [h1, h2] at h; cases h
      | ok s2 =>
        rw [h1, h2] at h
        simp only [Except.ok.injEq, Prod.mk.injEq] at h
        obtain ⟨rfl, rfl⟩ := h
        exact ⟨rfl, s1, s2, rfl, rfl, by simp⟩
  | essay =>
    simp only [scoreOne, hq, Except.ok.injEq, Prod.mk.injEq] at h
    obtain ⟨rfl, rfl⟩ := h
    exact ⟨by simp, rfl⟩

theorem specTotal_cons (qs : List Question) (a : Answer) (l : List Answer) :
    specTotal qs (a :: l) =
      (match getQuestion qs a.questionIndex with
       | none => 0
       | some _ => a.marksObtained.getD 0) + specTotal qs l := by
  simp [specTotal]

theorem scoreAnswers_ok (qs : List Question) :
    ∀ (l out : List Answer) (total : ℚ), scoreAnswers qs l = .ok (out, total) →
      total = specTotal qs out ∧ List.Forall₂ (answerRel qs) l out := by
  intro l
  induction l with
  | nil =>
    intro out total h
    simp only [scoreAnswers, Except.ok.injEq, Prod.mk.injEq] at h
    obtain ⟨rfl, rfl⟩ := h
    exact ⟨by simp [specTotal], List.Forall₂.nil⟩
  | cons a rest ih =>
    intro out total h
    cases hq : getQuestion qs a.questionIndex with
    | none =>
      cases hr : scoreAnswers qs rest with
      | error e =>
        simp only [scoreAnswers, hq, hr] at h
        exact Except.noConfusion h
      | ok p =>
        obtain ⟨restOut, restTot⟩ := p
        simp only [scoreAnswers, hq, hr, Except.ok.injEq, Prod.mk.injEq] at h
        obtain ⟨rfl, rfl⟩ := h
        obtain ⟨htot, hrel⟩ := ih restOut restTot hr
        refine ⟨?_, List.Forall₂.cons ?_ hrel⟩
        · simp only [specTotal_cons, hq, zero_add]
          exact htot
        · unfold answerRel
          rw [hq]
    | some q =>
      cases hc : scoreOne q a.answer with
      | error e =>
        simp only [scoreAnswers, hq, hc] at h
        exact Except.noConfusion h
      | ok cm =>
        obtain ⟨c, mq⟩ := cm
        cases hr : scoreAnswers qs rest with
        | error e =>
          simp only [scoreAnswers, hq, hc, hr] at h
          exact Except.noConfusion h
        | ok p =>
          obtain ⟨restOut, restTot⟩ := p
          simp only [scoreAnswers, hq, hc, hr, Except.ok.injEq, Prod.mk.injEq] at h
          obtain ⟨rfl, rfl⟩ := h
          obtain ⟨htot, hrel⟩ := ih restOut restTot hr
          obtain ⟨hm, hch⟩ := scoreOne_ok q a.answer c mq hc
          refine ⟨?_, List.Forall₂.cons ?_ hrel⟩
          · simp only [specTotal_cons, hq, Option.getD_some]
            rw [htot]
            ring
          · unfold answerRel
            rw [hq]
            exact ⟨rfl, rfl, rfl, c, rfl, by simp [hm], hch⟩

/-- The marks clause of claim C1 exactly as the spec states it: the marks
obtained for an answered question equal the question's `marks` when correct
and 0 otherwise. -/
def claimC1marks : Prop :=
  ∀ (quiz : Quiz) (sub scored : Submission), calculateScore quiz sub = Except.ok scored →
    ∀ (i : Nat) (a b : Answer) (q : Question),
      sub.answers[i]? = some a → scored.answers[i]? = some b →
      getQuestion quiz.questions a.questionIndex = some q →
      b.marksObtained = some (if b.isCorrect = some true then q.marks else 0)

/-- A single multiple-choice question whose `marks` field is `0` (the schema
allows `min: 0`). -/
def cexQuestion : Question :=
  { question := "q", qtype := .multipleChoice, correctAnswer := .str "A", marks := 0 }

/-- Quiz holding only `cexQuestion`; its stored `totalMarks` is `1` because
the pre-save hook also evaluates `marks || 1`. -/
def cexQuiz : Quiz :=
  { id := 1, questions := [cexQuestion], settings := { maxAttempts := 1 },
    deadline := 100, isActive := true, totalMarks := 1, submissions := [] }

/-- A correct answer to `cexQuestion`, before scoring. -/
def cexAnswerIn : Answer :=
  { questionIndex := 0, answer := .str "A", timeSpent := none,
    isCorrect := none, marksObtained := none }

/-- The same answer after scoring: the `marks || 1` fallback awards 1 mark. -/
def cexAnswerOut : Answer :=
  { questionIndex := 0, answer := .str "A", timeSpent := none,
    isCorrect := some true, marksObtained := some 1 }

/-- Submission of `cexAnswerIn` to `cexQuiz`. -/
def cexSub : Submission :=
  { id := 2, userId := 7, answers := [cexAnswerIn], startedAt := 0,
    submittedAt := none, totalScore := none, percentage := none,
    timeSpent := none, attemptNumber := 1, status := .submitted }

/-- What `calculateScore cexQuiz cexSub` computes. -/
def cexScored : Submission :=
  { id := 2, userId := 7, answers := [cexAnswerOut], startedAt := 0,
    submittedAt := none, totalScore := some 1, percentage := some 100,
    timeSpent := none, attemptNumber := 1, status := .graded }

/-- C1 counterexample: on a question with `marks = 0`, a correct answer is
awarded 1 mark (`question.marks || 1`), not the question's `marks = 0` the
claim prescribes. -/
theorem calculateScore_marks_zero_cex : ¬ claimC1marks := by
  intro h
  refine absurd
    (h cexQuiz cexSub cexScored ?_ 0 cexAnswerIn cexAnswerOut cexQuestion
      (by decide) (by decide) (by decide)) (by decide)
  norm_num [calculateScore, scoreAnswers, scoreOne, getQuestion, jsStrictEq, jsMarks,
    cexQuiz, cexSub, cexQuestion, cexAnswerIn, cexAnswerOut, cexScored]

/-- C1 (amended): scoring is a deterministic function of questions and
answers.  Whenever `calculateScore` completes, the scored submission is
`graded`, its answers are pointwise related to the submitted ones by the
spec's correctness rules (`answerRel`: strict equality for
multiple-choice/true-false, lower-cased trimmed equality for short-answer,
never correct for essay, marks obtained `= marks || 1` when correct and 0
otherwise), `totalScore` is the sum of the marks obtained over the answered
questions, and `percentage = totalScore / totalMarks * 100`, or 0 when
`totalMarks` is 0. -/
theorem calculateScore_spec (quiz : Quiz) (sub scored : Submission)
    (h : calculateScore quiz sub = Except.ok scored) (hM : 0 ≤ quiz.totalMarks) :
    scored.status = SubStatus.graded ∧
    List.Forall₂ (answerRel quiz.questions) sub.answers scored.answers ∧
    scored.totalScore = some (specTotal quiz.questions scored.answers) ∧
    scored.percentage = some (if quiz.totalMarks = 0 then 0
        else specTotal quiz.questions scored.answers / quiz.totalMarks * 100) := by
  unfold calculateScore at h
  cases hr : scoreAnswers quiz.questions sub.answers with
  | error e => rw [hr] at h; exact Except.noConfusion h
  | ok p =>
    obtain ⟨out, total⟩ := p
    rw [hr] at h
    obtain ⟨htot, hrel⟩ := scoreAnswers_ok quiz.questions sub.answers out total hr
    cases h
    refine ⟨rfl, hrel, congrArg some htot, congrArg some ?_⟩
    rcases eq_or_lt_of_le hM with heq | hlt
    · rw [if_neg (by rw [← heq]; exact lt_irrefl 0), if_pos heq.symm]
    · rw [if_pos hlt, if_neg (ne_of_gt hlt), htot]

/-- Question 1 of the spec's §8 scenario: multiple-choice, 1 mark,
correct answer "B". -/
def wQ1 : Question :=
  { question := "mc", qtype := .multipleChoice, correctAnswer := .str "B", marks := 1 }

/-- Question 2 of the spec's §8 scenario: true-false, 2 marks,
correct answer `true`. -/
def wQ2 : Question :=
  { question := "tf", qtype := .trueFalse, correctAnswer := .jbool true, marks := 2 }

/-- The spec's §8 quiz: two questions, `totalMarks = 3`. -/
def wQuiz : Quiz :=
  { id := 3, questions := [wQ1, wQ2], settings := { maxAttempts := 1 },
    deadline := 100, isActive := true, totalMarks := 3, submissions := [] }

/-- The §8 submission `[{0,"B"},{1,true}]`. -/
def wSub : Submission :=
  { id := 4, userId := 8,
    answers :=
      [ { questionIndex := 0, answer := .str "B", timeSpent := none,
          isCorrect := none, marksObtained := none },
        { questionIndex := 1, answer := .jbool true, timeSpent := none,
          isCorrect := none, marksObtained := none } ],
    startedAt := 0, submittedAt := none, totalScore := none, percentage := none,
    timeSpent := none, attemptNumber := 1, status := .submitted }

/-- The scored §8 submission: `totalScore = 3`, `percentage = 100`. -/
def wScored : Submission :=
  { id := 4, userId := 8,
    answers :=
      [ { questionIndex := 0, answer := .str "B", timeSpent := none,
          isCorrect := some true, marksObtained := some 1 },
        { questionIndex := 1, answer := .jbool true, timeSpent := none,
          isCorrect := some true, marksObtained := some 2 } ],
    startedAt := 0, submittedAt := none, totalScore := some 3, percentage := some 100,
    timeSpent := none, attemptNumber := 1, status := .graded }

/-- Witness for `calculateScore_spec` at the spec's §8 scenario. -/
theorem calculateScore_spec_witness : wScored.status = SubStatus.graded :=
  (calculateScore_spec wQuiz wSub wScored
    (by norm_num [calculateScore, scoreAnswers, scoreOne, getQuestion, jsStrictEq, jsMarks,
          wQuiz, wSub, wQ1, wQ2, wScored])
    (by decide)).1

theorem scoreAnswers_oob_middle (qs : List Question) (a : Answer)
    (hoob : getQuestion qs a.questionIndex = none) :
    ∀ l₁ l₂, scoreAnswers qs (l₁ ++ a :: l₂) =
      match scoreAnswers qs (l₁ ++ l₂) with
      | .ok p => .ok (p.1.take l₁.length ++ a :: p.1.drop l₁.length, p.2)
      | .error e => .error e := by
  intro l₁
  induction l₁ with
  | nil =>
    intro l₂
    simp only [List.nil_append, List.length_nil, List.take_zero, List.drop_zero]
    cases hr : scoreAnswers qs l₂ with
    | error e => simp only [scoreAnswers, hoob, hr]
    | ok p => simp only [scoreAnswers, hoob, hr]
  | cons b l₁ ih =>
    intro l₂
    simp only [List.cons_append, List.length_cons]
    cases hq : getQuestion qs b.questionIndex with
    | none =>
      cases hr : scoreAnswers qs (l₁ ++ l₂) with
      | error e =>
        simp only [scoreAnswers, hq, ih l₂, hr]
      | ok p =>
        simp only [scoreAnswers, hq, ih l₂, hr, List.take_succ_cons,
          List.drop_succ_cons, List.cons_append]
    | some q =>
      cases hc : scoreOne q b.answer with
      | error e =>
        cases hr : scoreAnswers qs (l₁ ++ l₂) with
        | error e2 => simp only [scoreAnswers, hq, hc, ih l₂, hr]
        | ok p => simp only [scoreAnswers, hq, hc, ih l₂, hr]
      | ok cm =>
        cases hr : scoreAnswers qs (l₁ ++ l₂) with
        | error e2 => simp only [scoreAnswers, hq, hc, ih l₂, hr]
        | ok p =>
          simp only [scoreAnswers, hq, hc, ih l₂, hr, List.take_succ_cons,
            List.drop_succ_cons, List.cons_append]

/-- C10: an answer whose `questionIndex` does not resolve to a question of
the quiz is skipped by scoring: the scored submission has the same
`totalScore` and `percentage` as if the answer were absent, the answer
record itself is returned unchanged (so `isCorrect`/`marksObtained` stay
unset), and `getQuestion` (the model of the bounds-checked
`this.questions[i]` access) is the only way questions are read. -/
theorem score_skips_oob (quiz : Quiz) (sub : Submission) (l₁ l₂ : List Answer) (a : Answer)
    (ha : sub.answers = l₁ ++ a :: l₂)
    (hoob : getQuestion quiz.questions a.questionIndex = none)
    (scored : Submission) (h : calculateScore quiz sub = Except.ok scored) :
    ∃ scored', calculateScore quiz { sub with answers := l₁ ++ l₂ } = Except.ok scored' ∧
      scored.totalScore = scored'.totalScore ∧
      scored.percentage = scored'.percentage ∧
      scored.answers = scored'.answers.take l₁.length ++ a :: scored'.answers.drop l₁.length ∧
      scored.answers[l₁.length]? = some a := by
  unfold calculateScore at h ⊢
  rw [ha, scoreAnswers_oob_middle quiz.questions a hoob l₁ l₂] at h
  cases hr : scoreAnswers quiz.questions (l₁ ++ l₂) with
  | error e => rw [hr] at h; exact Except.noConfusion h
  | ok p =>
    obtain ⟨out, total⟩ := p
    rw [hr] at h
    cases h
    have hlen : (l₁ ++ l₂).length = out.length :=
      (scoreAnswers_ok quiz.questions (l₁ ++ l₂) out total hr).2.length_eq
    have htake : (out.take l₁.length).length = l₁.length := by
      rw [List.length_take]
      simp only [List.length_append] at hlen
      omega
    refine ⟨_, rfl, rfl, rfl, rfl, ?_⟩
    rw [List.getElem?_append_right htake.le, htake]
    simp

/-- An answer whose `questionIndex` (5) is out of the bounds of `cexQuiz`'s
single question. -/
def wOobAnswer : Answer :=
  { questionIndex := 5, answer := .str "x", timeSpent := none,
    isCorrect := none, marksObtained := none }

/-- Submission holding only the out-of-bounds answer. -/
def wOobSub : Submission :=
  { id := 5, userId := 9, answers := [wOobAnswer], startedAt := 0,
    submittedAt := none, totalScore := none, percentage := none,
    timeSpent := none, attemptNumber := 1, status := .submitted }

/-- Result of `calculateScore cexQuiz wOobSub`: the answer is skipped, total 0. -/
def wOobScored : Submission :=
  { id := 5, userId := 9, answers := [wOobAnswer], startedAt := 0,
    submittedAt := none, totalScore := some 0, percentage := some 0,
    timeSpent := none, attemptNumber := 1, status := .graded }

/-- Witness for `score_skips_oob` on a concrete out-of-bounds submission. -/
theorem score_skips_oob_witness :
    ∃ scored', calculateScore cexQuiz { wOobSub with answers := [] } = Except.ok scored' ∧
      wOobScored.totalScore = scored'.totalScore ∧
      wOobScored.percentage = scored'.percentage ∧
      wOobScored.answers = scored'.answers.take 0 ++ wOobAnswer :: scored'.answers.drop 0 ∧
      wOobScored.answers[0]? = some wOobAnswer := by
  have hq : getQuestion [cexQuestion] wOobAnswer.questionIndex = none := by decide
  have hcalc : calculateScore cexQuiz wOobSub = Except.ok wOobScored := by
    norm_num [calculateScore, scoreAnswers, hq, cexQuiz, wOobSub, wOobScored]
  have h := score_skips_oob cexQuiz wOobSub [] [] wOobAnswer rfl hq wOobScored hcalc
  simpa using h

/-! ## Attempt lifecycle (claims C4, C6) -/

/-- Claim C4 as stated: if the quiz is startable and the user has an
in-progress submission, `start` resumes it and changes nothing, regardless
of how many submitted/graded attempts the user already has. -/
def claimC4 : Prop :=
  ∀ (quiz : Quiz) (u now freshId : Nat) (s : Submission),
    quiz.isActive = true → ¬ quiz.deadline < now →
    s ∈ quiz.submissions → s.userId = u → s.status = SubStatus.inProgress →
    ∃ s2, (startQuiz quiz u now freshId).1 = StartOutcome.resumed s2 ∧
      (startQuiz quiz u now freshId).2 = quiz

/-- A graded prior attempt of user 7. -/
def cexSubGraded : Submission :=
  { id := 10, userId := 7, answers := [], startedAt := 0, submittedAt := some 1,
    totalScore := some 0, percentage := some 0, timeSpent := none,
    attemptNumber := 1, status := .graded }

/-- An in-progress attempt of user 7. -/
def cexSubProg : Submission :=
  { id := 11, userId := 7, answers := [], startedAt := 2, submittedAt := none,
    totalScore := none, percentage := none, timeSpent := none,
    attemptNumber := 2, status := .inProgress }

/-- A quiz state with `maxAttempts = 1` where user 7 has one graded attempt
AND an in-progress one (reachable, e.g., by lowering `maxAttempts` through
`updateQuiz` while an attempt is open). -/
def cexQuiz4 : Quiz :=
  { id := 6, questions := [], settings := { maxAttempts := 1 }, deadline := 100,
    isActive := true, totalMarks := 0, submissions := [cexSubGraded, cexSubProg] }

/-- C4 counterexample: `startQuiz` tests `submittedAttempts >= maxAttempts`
BEFORE looking for an in-progress submission (`quizController.js` lines
301-311), so on `cexQuiz4` it answers `AttemptsExhausted` instead of
resuming. -/
theorem startQuiz_exhausted_before_resume_cex : ¬ claimC4 := by
  intro h
  obtain ⟨s2, hs2, -⟩ := h cexQuiz4 7 0 99 cexSubProg rfl (by decide) (by decide) rfl rfl
  have hres : (startQuiz cexQuiz4 7 0 99).1 = StartOutcome.attemptsExhausted := by decide
  rw [hres] at hs2
  exact StartOutcome.noConfusion hs2

/-- C4 (amended): resuming an in-progress submission happens only when the
user's submitted/graded count is still below `maxAttempts`; in that case
`start` returns the user's (first) in-progress submission unchanged, with
the quiz state untouched.  (When the count has reached `maxAttempts`,
`start` fails with `AttemptsExhausted` even though an in-progress
submission exists — see `startQuiz_attempts_exhausted`.) -/
theorem startQuiz_resume_spec (quiz : Quiz) (u now freshId : Nat) (s : Submission)
    (hact : quiz.isActive = true) (hdl : ¬ quiz.deadline < now)
    (hcap : submittedCount quiz u < quiz.settings.maxAttempts)
    (hfind : (quiz.submissions.filter fun t => t.userId == u).find?
        (fun t => t.status == SubStatus.inProgress) = some s) :
    startQuiz quiz u now freshId = (StartOutcome.resumed s, quiz) ∧
    s.userId = u ∧ s.status = SubStatus.inProgress ∧ s ∈ quiz.submissions := by
  have hs := List.find?_some hfind
  have hmem := List.mem_of_find?_eq_some hfind
  obtain ⟨hmem2, hu⟩ := List.mem_filter.mp hmem
  refine ⟨?_, by simpa using hu, by simpa using hs, hmem2⟩
  simp [startQuiz, hact, hdl, not_le.mpr hcap, hfind]

/-- Quiz with room for a second attempt: user 7 has one graded attempt and
one in-progress attempt, `maxAttempts = 2`. -/
def wQuiz4 : Quiz :=
  { id := 8, questions := [], settings := { maxAttempts := 2 }, deadline := 100,
    isActive := true, totalMarks := 0, submissions := [cexSubGraded, cexSubProg] }

/-- Witness for `startQuiz_resume_spec`. -/
theorem startQuiz_resume_spec_witness :
    startQuiz wQuiz4 7 0 99 = (StartOutcome.resumed cexSubProg, wQuiz4) :=
  (startQuiz_resume_spec wQuiz4 7 0 99 cexSubProg rfl (by decide) (by decide) (by decide)).1

/-- C6: once a user's submitted/graded attempts reach `maxAttempts`
(for an active, unexpired quiz), `start` fails with `AttemptsExhausted`
and leaves the quiz state (in particular its submissions) unchanged. -/
theorem startQuiz_attempts_exhausted (quiz : Quiz) (u now freshId : Nat)
    (hact : quiz.isActive = true) (hdl : ¬ quiz.deadline < now)
    (hcap : quiz.settings.maxAttempts ≤ submittedCount quiz u)
    (hnip : ∀ s ∈ quiz.submissions, s.userId = u → s.status ≠ SubStatus.inProgress) :
    startQuiz quiz u now freshId = (StartOutcome.attemptsExhausted, quiz) := by
  simp [startQuiz, hact, hdl, hcap]

/-- Quiz where user 7 has exhausted the single allowed attempt. -/
def wQuiz6 : Quiz :=
  { id := 7, questions := [], settings := { maxAttempts := 1 }, deadline := 100,
    isActive := true, totalMarks := 0, submissions := [cexSubGraded] }

/-- Witness for `startQuiz_attempts_exhausted`. -/
theorem startQuiz_attempts_exhausted_witness :
    startQuiz wQuiz6 7 0 99 = (StartOutcome.attemptsExhausted, wQuiz6) :=
  startQuiz_attempts_exhausted wQuiz6 7 0 99 rfl (by decide) (by decide) (by decide)

/-! ## Sending messages: authorization and replyTo validation (claims C7, C3) -/

/-- C7: in a group with `allowStudentMessages = false`, a student's send
attempt yields an error scoped to the sender: the socket handler emits only
`errorToSender` (never a room broadcast) and leaves the store unchanged, the
REST controller answers 403 with the store unchanged, and consequently every
user's unread count in every group is unchanged. -/
theorem student_blocked_spec (groups : List Group) (s : MsgStore) (sender : User)
    (gid : Nat) (text : Option String) (t : MType) (r : Option Nat) (g : Group)
    (hg : findGroup groups gid = some g)
    (hset : g.settings.allowStudentMessages = false)
    (hrole : sender.role = URole.student) :
    (∃ e, socketSendMessage groups s sender gid text t r = (SockResult.errorToSender e, s)) ∧
    (∃ e, (sendMessage groups s sender gid text t r).1 = RestResult.forbidden e) ∧
    (sendMessage groups s sender gid text t r).2 = s ∧
    (∀ gid2 u2, getUnreadCount (socketSendMessage groups s sender gid text t r).2 gid2 u2 =
        getUnreadCount s gid2 u2) := by
  have hsock : ∃ e, socketSendMessage groups s sender gid text t r =
      (SockResult.errorToSender e, s) := by
    cases hmem : g.isMember sender.id with
    | false =>
      exact ⟨"Not authorized to send messages in this group",
        by simp [socketSendMessage, hg, hmem]⟩
    | true =>
      exact ⟨"Students are not allowed to send messages in this group",
        by simp [socketSendMessage, hg, hmem, hrole, hset]⟩
  have hrest : sendMessage groups s sender gid text t r =
      (RestResult.forbidden "Students are not allowed to send messages in this group", s) := by
    simp [sendMessage, hg, hrole, hset]
  refine ⟨hsock, ⟨_, by rw [hrest]⟩, by rw [hrest], ?_⟩
  obtain ⟨e, he⟩ := hsock
  intro gid2 u2
  rw [he]

/-- A fully permissive settings record. -/
def cexSettingsOpen : GroupSettings :=
  { allowStudentMessages := true, allowFileUploads := true, allowQuizCreation := true }

/-- Settings forbidding student messages. -/
def cexSettingsNoStudent : GroupSettings :=
  { allowStudentMessages := false, allowFileUploads := true, allowQuizCreation := true }

/-- Group 1, created and administered by user 3. -/
def cexGroup1 : Group :=
  { id := 1, createdBy := 3, members := [{ user := 3, role := .admin, joinedAt := 0 }],
    maxMembers := 10, settings := cexSettingsOpen, isActive := true }

/-- Group 2 with `allowStudentMessages = false`; student 4 is a member. -/
def cexGroup2 : Group :=
  { id := 2, createdBy := 3,
    members := [{ user := 3, role := .admin, joinedAt := 0 },
                { user := 4, role := .member, joinedAt := 1 }],
    maxMembers := 10, settings := cexSettingsNoStudent, isActive := true }

/-- A student identity. -/
def cexStudent : User := { id := 4, role := .student }

/-- An admin identity. -/
def cexSender : User := { id := 3, role := .admin }

/-- An empty message store. -/
def cexEmptyStore : MsgStore := { messages := [], nextStamp := 0 }

/-- Witness for `student_blocked_spec`: student 4 blocked in group 2. -/
theorem student_blocked_spec_witness :
    ∃ e, socketSendMessage [cexGroup2] cexEmptyStore cexStudent 2 (some "hi") MType.text none =
      (SockResult.errorToSender e, cexEmptyStore) :=
  (student_blocked_spec [cexGroup2] cexEmptyStore cexStudent 2 (some "hi") MType.text none
    cexGroup2 (by decide) (by decide) rfl).1

/-- Claim C3 as stated: a send whose `replyTo` target does not exist in the
same group is rejected with no message created, on BOTH the REST path and
the real-time path. -/
def claimC3 : Prop :=
  ∀ (groups : List Group) (s : MsgStore) (sender : User) (gid : Nat)
    (text : Option String) (t : MType) (r : Nat),
    (∀ m ∈ s.messages, ¬ (m.id = r ∧ m.groupId = gid)) →
    (sendMessage groups s sender gid text t (some r)).2 = s ∧
    (∀ m, (sendMessage groups s sender gid text t (some r)).1 ≠ RestResult.created m) ∧
    (socketSendMessage groups s sender gid text t (some r)).2 = s

/-- A message stored in group 2 — the reply target used across the group-1
counterexample. -/
def cexReplyMsg : Message :=
  { id := 5, groupId := 2, senderId := 4, mtype := .text, text := some "other group",
    readBy := [], replyTo := none, isDeleted := false, deletedAt := none, createdAt := 5 }

/-- Store holding only `cexReplyMsg`. -/
def cexStore3 : MsgStore := { messages := [cexReplyMsg], nextStamp := 6 }

/-- C3 counterexample: the socket `send-message` handler performs no
`replyTo` validation (`socket.js` lines 60-102), so member 3 can post into
group 1 a message whose `replyTo` (id 5) lives in group 2 — the store
changes, no rejection happens. -/
theorem socket_replyTo_not_validated_cex : ¬ claimC3 := by
  intro h
  have h3 := (h [cexGroup1] cexStore3 cexSender 1 (some "hi") .text 5 (by decide)).2.2
  revert h3
  decide

/-- C3 (amended): only the REST `sendMessage` controller validates
`replyTo`: when the target id does not exist in the addressed group, the
REST send is rejected (404/403/400 depending on the earlier gates, never a
created message) and the store is unchanged.  The real-time handler stores
such messages unvalidated (see the counterexample). -/
theorem rest_replyTo_reject (groups : List Group) (s : MsgStore) (sender : User)
    (gid : Nat) (text : Option String) (t : MType) (r : Nat)
    (hno : ∀ m ∈ s.messages, ¬ (m.id = r ∧ m.groupId = gid)) :
    (sendMessage groups s sender gid text t (some r)).2 = s ∧
    ∀ m, (sendMessage groups s sender gid text t (some r)).1 ≠ RestResult.created m := by
  have hany : (s.messages.any fun m => m.id == r && m.groupId == gid) = false := by
    rw [List.any_eq_false]
    intro m hm
    have hm2 := hno m hm
    simp only [Bool.and_eq_true, beq_iff_eq, not_and] at hm2 ⊢
    exact hm2
  cases hg : findGroup groups gid with
  | none => constructor <;> simp [sendMessage, hg]
  | some g =>
    cases hstu : (sender.role == URole.student && !g.settings.allowStudentMessages) with
    | true => constructor <;> simp [sendMessage, hg, hstu]
    | false => constructor <;> simp [sendMessage, hg, hstu, hany]

/-- Witness for `rest_replyTo_reject`: the cross-group reply target of the
C3 counterexample is rejected on the REST path. -/
theorem rest_replyTo_reject_witness :
    (sendMessage [cexGroup1] cexStore3 cexSender 1 (some "hi") MType.text (some 5)).2 =
      cexStore3 :=
  (rest_replyTo_reject [cexGroup1] cexStore3 cexSender 1 (some "hi") MType.text 5
    (by decide)).1

/-! ## Unread counts (claim C9) -/

/-- Claim C9's count exactly as the spec words it: messages of the group not
authored by `uid` whose `readBy` does not contain `uid` — with no deletion
condition. -/
def unreadSpecClaim (s : MsgStore) (gid uid : Nat) : Nat :=
  s.messages.countP fun m =>
    m.groupId == gid && !(m.senderId == uid) &&
    (m.readBy.all fun e => !(e.userId == uid))

/-- Claim C9 as stated. -/
def claimC9 : Prop := ∀ s gid uid, getUnreadCount s gid uid = unreadSpecClaim s gid uid

/-- A soft-deleted, never-read message from user 2 in group 1. -/
def cexDelMsg : Message :=
  { id := 1, groupId := 1, senderId := 2, mtype := .text, text := some "gone",
    readBy := [], replyTo := none, isDeleted := true, deletedAt := some 3, createdAt := 0 }

/-- Store holding only `cexDelMsg`. -/
def cexStore9 : MsgStore := { messages := [cexDelMsg], nextStamp := 1 }

/-- C9 counterexample: `getUnreadCount` filters `isDeleted: false`
(`Message.js` line 195), so the deleted unread message is not counted (0),
while the claim's count is 1. -/
theorem unreadCount_deleted_cex : ¬ claimC9 := fun h =>
  absurd (h cexStore9 1 3) (by decide)

/-- The amended count: additionally requires the message not to be
soft-deleted. -/
def unreadSpecAmended (s : MsgStore) (gid uid : Nat) : Nat :=
  s.messages.countP fun m =>
    m.groupId == gid && !(m.senderId == uid) && !m.isDeleted &&
    (m.readBy.all fun e => !(e.userId == uid))

/-- C9 (amended): `unreadCount(groupId, userId)` equals the number of
messages in the group that are not authored by `userId`, not soft-deleted,
and whose `readBy` set does not contain `userId`. -/
theorem unreadCount_spec (s : MsgStore) (gid uid : Nat) :
    getUnreadCount s gid uid = unreadSpecAmended s gid uid := by
  have hall : ∀ l : List ReadEntry,
      (!(l.any fun e => e.userId == uid)) = l.all fun e => !(e.userId == uid) := by
    intro l
    induction l with
    | nil => rfl
    | cons e t ih => simp [List.any_cons, List.all_cons, ih]
  unfold getUnreadCount unreadSpecAmended
  rw [List.countP_eq_length_filter]
  congr 1
  apply List.filter_congr
  intro m hm
  rw [← hall m.readBy]

/-! ## Soft delete and page reads (claim C2) -/

/-- The `getMessage` single-read controller (`messageController.js` lines
30-65), restricted to its persisted/serialized behaviour: find the document,
check the caller's membership in its group, and serialize it (the `toJSON`
transform applies). -/
def getMessageRest (groups : List Group) (s : MsgStore) (user : User) (mid : Nat) :
    Option MessageView :=
  match s.messages.find? fun m => m.id == mid with
  | none => none
  | some m =>
    match findGroup groups m.groupId with
    | none => none
    | some g => if g.isMember user.id then some m.toJSON else none

/-- Claim C2 as stated: after soft-deleting message `mid`, some page read of
its group still contains it, redacted. -/
def claimC2 : Prop :=
  ∀ (s : MsgStore) (mid now gid : Nat),
    (∃ m ∈ s.messages, m.id = mid ∧ m.groupId = gid) →
    ∃ page limit, ∃ v ∈ pageRead (softDeleteInStore s mid now) gid page limit,
      v.id = mid ∧ v.text = some "This message was deleted" ∧ v.senderId = none

/-- A stored text message in group 1. -/
def cexLiveMsg : Message :=
  { id := 1, groupId := 1, senderId := 2, mtype := .text, text := some "hello",
    readBy := [], replyTo := none, isDeleted := false, deletedAt := none, createdAt := 0 }

/-- Store holding only `cexLiveMsg`. -/
def cexStore2 : MsgStore := { messages := [cexLiveMsg], nextStamp := 1 }

/-- C2 counterexample: `getGroupMessages` queries `isDeleted: false`
(`Message.js` line 180), so after soft-deleting the only message of group 1
every page of every size is empty — the deleted message never appears in a
page read, redacted or otherwise. -/
theorem pageRead_excludes_deleted_cex : ¬ claimC2 := by
  intro h
  obtain ⟨page, limit, v, hv, -⟩ :=
    h cexStore2 1 9 1 ⟨cexLiveMsg, by decide, rfl, rfl⟩
  have hempty : pageRead (softDeleteInStore cexStore2 1 9) 1 page limit = [] := by
    have hf : (softDeleteInStore cexStore2 1 9).messages.filter
        (fun m => m.groupId == 1 && !m.isDeleted) = [] := by decide
    simp [pageRead, getMessages, getGroupMessages, hf, sortDesc]
  rw [hempty] at hv
  exact List.not_mem_nil v hv

theorem mem_insertDesc {x m : Message} {l : List Message} :
    x ∈ insertDesc m l ↔ x = m ∨ x ∈ l := by
  induction l with
  | nil => simp [insertDesc]
  | cons y ys ih =>
    by_cases hc : y.createdAt ≤ m.createdAt
    · simp [insertDesc, hc]
    · simp only [insertDesc, if_neg hc, List.mem_cons, ih]
      tauto

theorem mem_sortDesc {x : Message} {l : List Message} : x ∈ sortDesc l ↔ x ∈ l := by
  induction l with
  | nil => simp [sortDesc]
  | cons y ys ih => simp [sortDesc, mem_insertDesc, ih]

/-- C2 (amended): soft-deleting a message leaves its stored text (and id)
unchanged — deletion is reversible in storage — but `page()` reads exclude
soft-deleted messages entirely (`isDeleted: false` filter); the redaction
the spec describes (`"This message was deleted"`, null sender) applies on
read paths that do serialize a deleted message, such as the single-message
read. -/
theorem softDelete_redaction_spec :
    (∀ (s : MsgStore) (mid now : Nat),
       (softDeleteInStore s mid now).messages.map (fun m => (m.id, m.text)) =
         s.messages.map fun m => (m.id, m.text)) ∧
    (∀ (s : MsgStore) (gid page limit : Nat),
       ∀ m ∈ getMessages s gid page limit, m.isDeleted = false) ∧
    (∀ m : Message, m.isDeleted = true →
       m.toJSON.text = some "This message was deleted" ∧ m.toJSON.senderId = none) ∧
    (∀ (groups : List Group) (s : MsgStore) (user : User) (mid : Nat) (v : MessageView),
       getMessageRest groups s user mid = some v → v.isDeleted = true →
       v.text = some "This message was deleted" ∧ v.senderId = none) := by
  have hjson : ∀ m : Message, m.isDeleted = true →
      m.toJSON.text = some "This message was deleted" ∧ m.toJSON.senderId = none := by
    intro m hm
    simp [Message.toJSON, hm]
  refine ⟨?_, ?_, hjson, ?_⟩
  · intro s mid now
    simp only [softDeleteInStore, List.map_map]
    apply List.map_congr_left
    intro m hm
    by_cases hid : m.id == mid
    · simp [Function.comp, hid, Message.softDelete]
    · simp [Function.comp, hid]
  · intro s gid page limit m hm
    simp only [getMessages, getGroupMessages, List.mem_reverse] at hm
    have hm2 : m ∈ sortDesc (s.messages.filter fun m => m.groupId == gid && !m.isDeleted) :=
      (List.drop_sublist _ _).subset ((List.take_sublist _ _).subset hm)
    have hm3 := mem_sortDesc.mp hm2
    have hp := List.of_mem_filter hm3
    simp only [Bool.and_eq_true, Bool.not_eq_true'] at hp
    exact hp.2
  · intro groups s user mid v hv hdel
    cases hfind : s.messages.find? fun m => m.id == mid with
    | none =>
      simp only [getMessageRest, hfind] at hv
      exact Option.noConfusion hv
    | some m =>
      cases hg : findGroup groups m.groupId with
      | none =>
        simp only [getMessageRest, hfind, hg] at hv
        exact Option.noConfusion hv
      | some g =>
        simp only [getMessageRest, hfind, hg] at hv
        by_cases hmem : g.isMember user.id = true
        · rw [if_pos hmem, Option.some.injEq] at hv
          subst hv
          by_cases hd : m.isDeleted = true
          · exact hjson m hd
          · exfalso
            rw [Message.toJSON, if_neg hd] at hdel
            exact hd hdel
        · rw [if_neg hmem] at hv
          exact Option.noConfusion hv

/-- Witness for `softDelete_redaction_spec`: the redaction clause at the
concrete deleted message `cexDelMsg`. -/
theorem softDelete_redaction_spec_witness :
    cexDelMsg.toJSON.text = some "This message was deleted" ∧
    cexDelMsg.toJSON.senderId = none :=
  softDelete_redaction_spec.2.2.1 cexDelMsg rfl

/-! ## Page ordering (claim C5) -/

theorem insertDesc_of_lt {m : Message} : ∀ {l : List Message},
    (∀ x ∈ l, m.createdAt < x.createdAt) → insertDesc m l = l ++ [m] := by
  intro l
  induction l with
  | nil => intro _; rfl
  | cons y ys ih =>
    intro h
    have hy : m.createdAt < y.createdAt := h y (List.mem_cons_self y ys)
    rw [insertDesc, if_neg (not_le.mpr hy), ih fun x hx => h x (List.mem_cons_of_mem y hx)]
    rfl

/-- On a chronologically ordered list (strictly increasing `createdAt`), the
`{ createdAt: -1 }` sort is exactly the reversal. -/
theorem sortDesc_of_chron : ∀ {l : List Message},
    l.Pairwise (fun a b => a.createdAt < b.createdAt) → sortDesc l = l.reverse := by
  intro l
  induction l with
  | nil => intro _; rfl
  | cons m xs ih =>
    intro h
    obtain ⟨hm, hxs⟩ := List.pairwise_cons.mp h
    rw [sortDesc, ih hxs, insertDesc_of_lt fun x hx => hm x (List.mem_reverse.mp hx),
      List.reverse_cons]

/-- Lemma: `Message.create` preserves store well-formedness. -/
theorem appendMessage_WF {s : MsgStore} (h : s.WF) (gid uid : Nat) (t : MType)
    (text : Option String) (r : Option Nat) : (appendMessage s gid uid t text r).2.WF := by
  obtain ⟨hpw, hlt⟩ := h
  constructor
  · apply List.pairwise_append.mpr
    refine ⟨hpw, List.pairwise_singleton _ _, ?_⟩
    intro a ha b hb
    rw [List.mem_singleton] at hb
    subst hb
    exact hlt a ha
  · intro m hm
    rcases List.mem_append.mp hm with hm2 | hm2
    · exact Nat.lt_succ_of_lt (hlt m hm2)
    · rw [List.mem_singleton] at hm2
      subst hm2
      exact Nat.lt_succ_self _

/-- In a strictly chronologically sorted list, two members with ordered
timestamps occur in that order (`[a, b]` is a sublist). -/
theorem sublist_pair_of_pairwise_lt : ∀ {l : List Message},
    l.Pairwise (fun a b => a.createdAt < b.createdAt) →
    ∀ {a b : Message}, a ∈ l → b ∈ l → a.createdAt < b.createdAt →
      [a, b].Sublist l := by
  intro l
  induction l with
  | nil => intro _ a b ha; exact absurd ha (List.not_mem_nil a)
  | cons x xs ih =>
    intro h a b ha hb hab
    obtain ⟨hx, hxs⟩ := List.pairwise_cons.mp h
    rcases List.mem_cons.mp ha with rfl | ha2
    · rcases List.mem_cons.mp hb with rfl | hb2
      · exact absurd hab (lt_irrefl _)
      · exact List.Sublist.cons₂ _ (List.singleton_sublist.mpr hb2)
    · rcases List.mem_cons.mp hb with rfl | hb2
      · exact absurd hab (hx a ha2).asymm
      · exact List.Sublist.cons _ (ih hxs ha2 hb2 hab)

/-- C5: on a well-formed store, after appending M1 then M2 to group `gid`,
(i) the page query is `sort createdAt desc`, `skip (page-1)*limit`,
`take limit` over the group's non-deleted messages; (ii) the controller
delivers the page reversed; (iii) the delivered page is in strictly
chronological order; and (iv) whenever both M1 and M2 appear in the
delivered page, M1 precedes M2. -/
theorem pageRead_order_spec (s : MsgStore) (hWF : s.WF) (gid u1 u2 : Nat)
    (t1 t2 : MType) (c1 c2 : Option String) (r1 r2 : Option Nat) (page limit : Nat)
    (hp : 1 ≤ page) :
    let p1 := appendMessage s gid u1 t1 c1 r1
    let p2 := appendMessage p1.2 gid u2 t2 c2 r2
    let delivered := getMessages p2.2 gid page limit
    getGroupMessages p2.2 gid page limit =
      ((sortDesc (p2.2.messages.filter fun m => m.groupId == gid && !m.isDeleted)).drop
        ((page - 1) * limit)).take limit ∧
    delivered = (getGroupMessages p2.2 gid page limit).reverse ∧
    delivered.Pairwise (fun a b => a.createdAt < b.createdAt) ∧
    (p1.1 ∈ delivered → p2.1 ∈ delivered → [p1.1, p2.1].Sublist delivered) := by
  intro p1 p2 delivered
  have hWF1 : p1.2.WF := appendMessage_WF hWF gid u1 t1 c1 r1
  have hWF2 : p2.2.WF := appendMessage_WF hWF1 gid u2 t2 c2 r2
  have hfilterPW : (p2.2.messages.filter fun m =>
      m.groupId == gid && !m.isDeleted).Pairwise
      (fun a b => a.createdAt < b.createdAt) :=
    List.Pairwise.sublist (List.filter_sublist _) hWF2.1
  have hsorted : delivered.Pairwise fun a b => a.createdAt < b.createdAt := by
    have h1 : (sortDesc (p2.2.messages.filter fun m =>
        m.groupId == gid && !m.isDeleted)).Pairwise
        (fun a b => b.createdAt < a.createdAt) := by
      rw [sortDesc_of_chron hfilterPW]
      exact List.pairwise_reverse.mpr hfilterPW
    show (((sortDesc (p2.2.messages.filter fun m =>
        m.groupId == gid && !m.isDeleted)).drop
        ((page - 1) * limit)).take limit).reverse.Pairwise
        fun a b => a.createdAt < b.createdAt
    rw [List.pairwise_reverse]
    exact List.Pairwise.sublist (List.take_sublist _ _)
      (List.Pairwise.sublist (List.drop_sublist _ _) h1)
  refine ⟨rfl, rfl, hsorted, ?_⟩
  intro h1 h2
  have hlt : p1.1.createdAt < p2.1.createdAt := Nat.lt_succ_self _
  exact sublist_pair_of_pairwise_lt hsorted h1 h2 hlt

/-- First append of the C5 witness: message by user 3 into group 1. -/
def wP1 : Message × MsgStore := appendMessage cexEmptyStore 1 3 MType.text (some "m1") none

/-- Second append of the C5 witness: message by user 4 into group 1. -/
def wP2 : Message × MsgStore := appendMessage wP1.2 1 4 MType.text (some "m2") none

/-- Witness for `pageRead_order_spec`: on an initially empty store, the
delivered first page contains M1 before M2. -/
theorem pageRead_order_spec_witness :
    [wP1.1, wP2.1].Sublist (getMessages wP2.2 1 1 50) := by
  have h := pageRead_order_spec cexEmptyStore
    ⟨List.Pairwise.nil, by intro m hm; exact absurd hm (List.not_mem_nil m)⟩
    1 3 4 MType.text MType.text (some "m1") (some "m2") none none 1 50 (le_refl 1)
  exact h.2.2.2 (by decide) (by decide)

/-! ## Creator-admin invariant (claim C8) -/

theorem creatorAdmin_addMember {g : Group} (h : g.creatorIsAdmin = true) (u : Nat)
    (role : GRole) (now : Nat) : (g.addMember u role now).creatorIsAdmin = true := by
  unfold Group.addMember
  by_cases hm : g.isMember u = true
  · simpa [hm] using h
  · rw [if_neg hm]
    unfold Group.creatorIsAdmin at h ⊢
    simp only [List.any_append, List.any_cons, List.any_nil, Bool.or_eq_true]
    exact Or.inl h

theorem creatorAdmin_removeMember {g : Group} (h : g.creatorIsAdmin = true) {u : Nat}
    (hne : ¬ g.createdBy = u) : (g.removeMember u).creatorIsAdmin = true := by
  unfold Group.creatorIsAdmin at h ⊢
  unfold Group.removeMember
  simp only [List.any_eq_true] at h ⊢
  obtain ⟨m, hm, hp⟩ := h
  refine ⟨m, ?_, hp⟩
  rw [List.mem_filter]
  refine ⟨hm, ?_⟩
  simp only [Bool.and_eq_true, beq_iff_eq] at hp
  simp [hp.1, hne]

theorem creatorAdmin_setRoleFirst {u c : Nat} {role : GRole} (hne : ¬ c = u) :
    ∀ {l : List GMember},
      (l.any fun m => m.user == c && m.role == GRole.admin) = true →
      ((setRoleFirst u role l).any fun m => m.user == c && m.role == GRole.admin) = true := by
  intro l
  induction l with
  | nil => intro h; exact h
  | cons m ms ih =>
    intro h
    simp only [List.any_cons, Bool.or_eq_true] at h
    by_cases hu : (m.user == u) = true
    · rw [setRoleFirst, if_pos hu]
      simp only [List.any_cons, Bool.or_eq_true]
      rcases h with hhead | htail
      · exfalso
        simp only [Bool.and_eq_true, beq_iff_eq] at hhead hu
        exact hne (hhead.1 ▸ hu)
      · exact Or.inr htail
    · rw [setRoleFirst, if_neg hu]
      simp only [List.any_cons, Bool.or_eq_true]
      rcases h with hhead | htail
      · exact Or.inl hhead
      · exact Or.inr (ih htail)

theorem creatorAdmin_changeRole {g : Group} (h : g.creatorIsAdmin = true) {u : Nat}
    (hne : ¬ g.createdBy = u) (role : GRole) :
    Group.creatorIsAdmin { g with members := setRoleFirst u role g.members } = true := by
  unfold Group.creatorIsAdmin at h ⊢
  exact creatorAdmin_setRoleFirst hne h

/-- C8: the group creator is a member with role `admin` immediately after
creation (the pre-save hook installs them), and every member mutation —
join, leave, admin add/remove member, role change — preserves that fact:
the leave/remove endpoints refuse to touch the creator and the role-change
endpoint refuses to change the creator's role. -/
theorem creator_admin_invariant :
    (∀ (gid creator maxM : Nat) (st : GroupSettings) (now : Nat),
        (createGroupCtrl gid creator maxM st now).creatorIsAdmin = true) ∧
    (∀ (g : Group) (op : GroupOp), g.creatorIsAdmin = true →
        ((applyGroupOp g op).2).creatorIsAdmin = true) := by
  constructor
  · intro gid creator maxM st now
    unfold createGroupCtrl preSaveNew Group.creatorIsAdmin
    simp
  · intro g op hinv
    cases op with
    | join u now =>
      simp only [applyGroupOp]
      unfold joinGroup
      by_cases h1 : g.isMember u = true
      · simpa [h1] using hinv
      · by_cases h2 : g.maxMembers ≤ g.members.length
        · simpa [h1, h2] using hinv
        · rw [if_neg h1, if_neg h2]
          exact creatorAdmin_addMember hinv u GRole.member now
    | leave u =>
      simp only [applyGroupOp]
      unfold leaveGroup
      by_cases h1 : (g.createdBy == u) = true
      · simpa [h1] using hinv
      · by_cases h2 : g.isMember u = true
        · rw [if_neg h1, if_pos h2]
          exact creatorAdmin_removeMember hinv (by simpa using h1)
        · simpa [h1, h2] using hinv
    | add u role now =>
      simp only [applyGroupOp]
      unfold addMemberCtrl
      by_cases h1 : g.isMember u = true
      · simpa [h1] using hinv
      · by_cases h2 : g.maxMembers ≤ g.members.length
        · simpa [h1, h2] using hinv
        · rw [if_neg h1, if_neg h2]
          exact creatorAdmin_addMember hinv u role now
    | remove u =>
      simp only [applyGroupOp]
      unfold removeMemberCtrl
      by_cases h1 : (g.createdBy == u) = true
      · simpa [h1] using hinv
      · by_cases h2 : g.isMember u = true
        · rw [if_neg h1, if_pos h2]
          exact creatorAdmin_removeMember hinv (by simpa using h1)
        · simpa [h1, h2] using hinv
    | changeRole u role =>
      simp only [applyGroupOp]
      unfold updateMemberRole
      by_cases h1 : (g.createdBy == u) = true
      · simpa [h1] using hinv
      · by_cases h2 : (g.members.any fun m => m.user == u && !(m.role == role)) = true
        · rw [if_neg h1, if_pos h2]
          exact creatorAdmin_changeRole hinv (by simpa using h1) role
        · simpa [h1, h2] using hinv

/-- Witness for `creator_admin_invariant`: user 5 joining `cexGroup2`
preserves the creator's admin membership. -/
theorem creator_admin_invariant_witness :
    ((applyGroupOp cexGroup2 (GroupOp.join 5 3)).2).creatorIsAdmin = true :=
  creator_admin_invariant.2 cexGroup2 (GroupOp.join 5 3) (by decide)

end ExamConnect
